import Mathlib

/-!
Verification of the kalshi-trading core: a shallow embedding in Lean 4 of the
risk manager (`engine/risk.py`), the scoreboard strategies
(`strategies/scoreboard.py`) and the backtest replayer (`engine/backtester.py`),
together with theorems settling the specification claims about them.

Conventions of the embedding:
* Python ints are `Int`; all monetary values are integer cents, as in the source.
* Python `dict[str, int]` is an insertion-ordered association list
  `List (String × Int)`; `dictGet`/`dictSet` mirror `dict.get(k, 0)` and
  `d[k] = v` (update-in-place of the first binding, append when absent).
* `date.today()` is an explicit `today : Int` parameter threaded into every
  operation that calls it; calendar dates are opaque integers.
* The mutable `RiskState` becomes explicit state passing: each method returns
  the updated state.
* `strategies/base.py` is not part of the sources; its value types
  (`Signal`, `TradeSignal`, `MarketState`) are modelled from the spec and
  marked as such below.
-/

/-- Game status states, from `clients/espn.py` (`GameStatus`): pre, in, post. -/
inductive GameStatus where
  | pre
  | inProgress
  | post
deriving DecidableEq

/-- Team information, from `clients/espn.py` (`Team`). -/
structure Team where
  id : String
  abbreviation : String
  display_name : String
deriving DecidableEq

/-- Current state of a game, from `clients/espn.py` (`GameState`).
`clock_seconds` is a Python float; the claims under verification only
compare it against integer thresholds, so it is embedded as `Int`. -/
structure GameState where
  event_id : String
  sport : String
  home_team : Team
  away_team : Team
  home_score : Int
  away_score : Int
  period : Int
  clock_seconds : Int
  status : GameStatus
deriving DecidableEq

/-- `GameState.margin`: point margin from the home team's perspective. -/
def GameState.margin (g : GameState) : Int :=
  g.home_score - g.away_score

/-- `GameState.is_live`: game is in progress. -/
def GameState.is_live (g : GameState) : Bool :=
  g.status = GameStatus.inProgress

/-- `GameState.is_final`: game has finished. -/
def GameState.is_final (g : GameState) : Bool :=
  g.status = GameStatus.post

/-- Market status, from `clients/models.py` (`MarketStatus`). -/
inductive MarketStatus where
  | open
  | closed
  | settled
deriving DecidableEq

/-- Kalshi market data, from `clients/models.py` (`Market`). -/
structure Market where
  ticker : String
  event_ticker : String
  title : String
  status : MarketStatus
  yes_bid : Int
  yes_ask : Int
  no_bid : Int
  no_ask : Int
  volume : Int
  open_interest : Int
deriving DecidableEq

/-- Open position data, from `clients/models.py` (`Position`). -/
structure Position where
  ticker : String
  market_exposure : Int
  position : Int
  realized_pnl : Int
deriving DecidableEq

/-- Modelled from the spec: `strategies/base.py` is absent from the sources;
per spec §3, `MarketState` wraps a market quote with derived `is_open`. -/
structure MarketState where
  market : Market
deriving DecidableEq

/-- Modelled from the spec: `MarketState.is_open` derived field. -/
def MarketState.is_open (m : MarketState) : Bool :=
  m.market.status = MarketStatus.open

/-- Modelled from the spec: signal kind enum `Signal` with values
buy, sell, hold (`strategies/base.py` is absent from the sources). -/
inductive Signal where
  | buy
  | sell
  | hold
deriving DecidableEq

/-- The Python enum's `.value` string, as compared against in `record_trade`. -/
def Signal.value : Signal → String
  | Signal.buy => "buy"
  | Signal.sell => "sell"
  | Signal.hold => "hold"

/-- Modelled from the spec: `TradeSignal` (`strategies/base.py` is absent from
the sources): signal kind, ticker, side ("yes"/"no"), size, optional price in
cents, reason, timestamp. The timestamp is an opaque optional integer. -/
structure TradeSignal where
  signal : Signal
  ticker : String
  side : String
  size : Int
  price : Option Int := none
  reason : String := ""
  timestamp : Option Int := none
deriving DecidableEq

/-- Modelled from the spec: `is_actionable` ⇔ kind ∈ \x7bbuy, sell\x7d AND size > 0. -/
def TradeSignal.is_actionable (s : TradeSignal) : Bool :=
  (s.signal = Signal.buy ∨ s.signal = Signal.sell) ∧ s.size > 0

/-- Python `d.get(k, default)` on an insertion-ordered dict embedded as an
association list: value of the first binding of `k`, else the default. -/
def dictGet (m : List (String × Int)) (k : String) (d : Int) : Int :=
  match m with
  | [] => d
  | (k', v) :: rest => if k' = k then v else dictGet rest k d

/-- Python `d[k] = v`: replace the first binding of `k`, appending a new
binding when `k` is absent (dicts preserve insertion order). -/
def dictSet (m : List (String × Int)) (k : String) (v : Int) : List (String × Int) :=
  match m with
  | [] => [(k, v)]
  | (k', v') :: rest => if k' = k then (k, v) :: rest else (k', v') :: dictSet rest k v

/-- Risk limit configuration, from `engine/risk.py` (`RiskLimits`); all
monetary values in cents. -/
structure RiskLimits where
  max_position_size : Int := 100
  max_daily_loss : Int := 50000
  max_exposure_per_market : Int := 20000
  max_total_exposure : Int := 100000
deriving DecidableEq

/-- Record of a completed trade, from `engine/risk.py` (`TradeRecord`). -/
structure TradeRecord where
  timestamp : Option Int
  ticker : String
  side : String
  action : String
  size : Int
  price : Int
  pnl : Int := 0
deriving DecidableEq

/-- Current risk state tracking, from `engine/risk.py` (`RiskState`). -/
structure RiskState where
  positions : List (String × Int) := []
  exposure : List (String × Int) := []
  daily_pnl : Int := 0
  trade_date : Int := 0
  trades : List TradeRecord := []
deriving DecidableEq

/-- `RiskState.reset_daily`: reset daily tracking for a new day.  The Python
method reads `date.today()`; here `today` is an explicit parameter. -/
def RiskState.reset_daily (s : RiskState) (today : Int) : RiskState :=
  if s.trade_date ≠ today then
    { s with daily_pnl := 0, trade_date := today, trades := [] }
  else s

/-- `RiskState.total_exposure`: total exposure across all markets. -/
def RiskState.total_exposure (s : RiskState) : Int :=
  (s.exposure.map Prod.snd).sum

/-- `RiskManager.can_trade`: check whether a trade signal can be executed
within risk limits.  Mirrors the source line by line; note that the Python
guard `if signal.price:` is truthiness, false both for `None` and for `0`. -/
def can_trade (limits : RiskLimits) (today : Int) (s0 : RiskState)
    (signal : TradeSignal) : Bool :=
  let s := s0.reset_daily today
  if s.daily_pnl ≤ -limits.max_daily_loss then
    false
  else
    let current_position := dictGet s.positions signal.ticker 0
    let new_position := current_position + signal.size
    if |new_position| > limits.max_position_size then
      false
    else
      match signal.price with
      | none => true
      | some p =>
        if p = 0 then
          true
        else
          let trade_exposure := signal.size * p
          let current_exposure := dictGet s.exposure signal.ticker 0
          if current_exposure + trade_exposure > limits.max_exposure_per_market then
            false
          else if s.total_exposure + trade_exposure > limits.max_total_exposure then
            false
          else
            true

/-- `RiskManager.max_allowed_size`: maximum contracts that can be added. -/
def max_allowed_size (limits : RiskLimits) (s : RiskState) (ticker : String) : Int :=
  max 0 (limits.max_position_size - |dictGet s.positions ticker 0|)

/-- `RiskManager.adjust_signal`: reduce the signal's size when it exceeds
`max_allowed_size`, annotating the reason; otherwise return it unchanged. -/
def adjust_signal (limits : RiskLimits) (s : RiskState)
    (signal : TradeSignal) : TradeSignal :=
  let max_size := max_allowed_size limits s signal.ticker
  if signal.size ≤ max_size then
    signal
  else
    { signal := signal.signal
      ticker := signal.ticker
      side := signal.side
      size := max_size
      price := signal.price
      reason := signal.reason ++ " (reduced from " ++ toString signal.size ++
        " to " ++ toString max_size ++ ")"
      timestamp := signal.timestamp }

/-- `RiskManager.record_trade`: record a completed trade; position moves by
+size when the signal kind's value is "buy" and by −size otherwise, exposure
grows by `size * fill_price`, daily P&L by `realized_pnl`, and one
`TradeRecord` is appended. -/
def record_trade (today : Int) (s0 : RiskState) (signal : TradeSignal)
    (fill_price : Int) (realized_pnl : Int) : RiskState :=
  let s := s0.reset_daily today
  let current := dictGet s.positions signal.ticker 0
  let positions :=
    if signal.signal.value = "buy" then
      dictSet s.positions signal.ticker (current + signal.size)
    else
      dictSet s.positions signal.ticker (current - signal.size)
  let exposure := signal.size * fill_price
  let current_exposure := dictGet s.exposure signal.ticker 0
  { s with
    positions := positions
    exposure := dictSet s.exposure signal.ticker (current_exposure + exposure)
    daily_pnl := s.daily_pnl + realized_pnl
    trades := s.trades ++ [{
      timestamp := signal.timestamp
      ticker := signal.ticker
      side := signal.side
      action := signal.signal.value
      size := signal.size
      price := fill_price
      pnl := realized_pnl }] }

/-- Reading back the key just written returns the new value. -/
theorem dictGet_dictSet_same (m : List (String × Int)) (k : String) (v d : Int) :
    dictGet (dictSet m k v) k d = v := by
  induction m with
  | nil => simp [dictGet, dictSet]
  | cons hd tl ih =>
    rcases hd with ⟨k', v'⟩
    by_cases hk : k' = k
    · simp [dictGet, dictSet, hk]
    · simp [dictGet, dictSet, hk, ih]

/-- Writing one key leaves every other key unchanged. -/
theorem dictGet_dictSet_other (m : List (String × Int)) (k k' : String) (v d : Int)
    (h : k' ≠ k) : dictGet (dictSet m k v) k' d = dictGet m k' d := by
  have h' : k ≠ k' := Ne.symm h
  induction m with
  | nil => simp [dictGet, dictSet, h']
  | cons hd tl ih =>
    rcases hd with ⟨k0, v0⟩
    by_cases hk : k0 = k
    · subst hk
      simp [dictGet, dictSet, h']
    · by_cases hk' : k0 = k'
      · subst hk'
        simp [dictGet, dictSet, h', h]
      · simp [dictGet, dictSet, hk, hk', ih]

/-- C7: when the stored date differs from the current date, `reset_daily`
zeroes `daily_pnl`, empties the trade list and stores the new date while
leaving `positions` and `exposure` untouched; when the dates agree it is the
identity. -/
theorem reset_daily_spec (s : RiskState) (today : Int) :
    (s.trade_date ≠ today →
      s.reset_daily today =
        { positions := s.positions, exposure := s.exposure, daily_pnl := 0,
          trade_date := today, trades := [] }) ∧
    (s.trade_date = today → s.reset_daily today = s) := by
  constructor
  · intro h
    simp [RiskState.reset_daily, h]
  · intro h
    simp [RiskState.reset_daily, h]

/-- A sample trade record used by concrete witnesses below. -/
def trW : TradeRecord :=
  { timestamp := some 11, ticker := "NFL-2426-BUF", side := "yes",
    action := "buy", size := 10, price := 64, pnl := -100 }

/-- A sample risk state with a stale trade date used by witnesses below. -/
def rsW : RiskState :=
  { positions := [("NFL-2426-BUF", 10)], exposure := [("NFL-2426-BUF", 640)],
    daily_pnl := -100, trade_date := 1, trades := [trW] }

/-- Witness for C7 at a concrete stale-dated and a concrete current-dated
state. -/
theorem reset_daily_spec_witness :
    rsW.reset_daily 2 =
      { positions := [("NFL-2426-BUF", 10)], exposure := [("NFL-2426-BUF", 640)],
        daily_pnl := 0, trade_date := 2, trades := [] } ∧
    rsW.reset_daily 1 = rsW :=
  ⟨(reset_daily_spec rsW 2).1 (by decide), (reset_daily_spec rsW 1).2 (by decide)⟩

/-- The `can_trade` acceptance condition exactly as claim C1 words it: the
per-market and total exposure checks apply whenever the signal carries a
price (`price = some p`), with no exception for a zero price.  Written from
the claim's words, to be compared against the source-derived `can_trade`. -/
def can_trade_claimed (limits : RiskLimits) (s : RiskState)
    (signal : TradeSignal) : Bool :=
  decide (s.daily_pnl > -limits.max_daily_loss) &&
  decide (|dictGet s.positions signal.ticker 0 + signal.size| ≤ limits.max_position_size) &&
  (match signal.price with
   | none => true
   | some p =>
     decide (dictGet s.exposure signal.ticker 0 + signal.size * p ≤
       limits.max_exposure_per_market) &&
     decide (s.total_exposure + signal.size * p ≤ limits.max_total_exposure))

/-- Default risk limits, as constructed by `RiskLimits()`. -/
def defaultLimits : RiskLimits := {}

/-- A state already over the per-market exposure limit on ticker "T". -/
def cexState : RiskState :=
  { positions := [], exposure := [("T", 20001)], daily_pnl := 0,
    trade_date := 0, trades := [] }

/-- A buy signal whose price field is present but equal to 0. -/
def cexSignal : TradeSignal :=
  { signal := Signal.buy, ticker := "T", side := "yes", size := 1,
    price := some 0, reason := "", timestamp := none }

/-- C1 counterexample: with the per-market exposure already exceeded and a
signal carrying the price `some 0`, the code accepts the trade while the
claim's condition (exposure checks applied whenever a price is present)
rejects it — the Python guard `if signal.price:` treats a zero price like a
missing one. -/
theorem can_trade_claim_counterexample :
    can_trade defaultLimits 0 cexState cexSignal = true ∧
    can_trade_claimed defaultLimits cexState cexSignal = false := by
  constructor
  · rfl
  · rfl

/-- C1 (amended): for a state dated today, `can_trade` accepts exactly when
the daily loss stop has not been hit, the resulting absolute position is
within `max_position_size`, and — whenever the signal carries a nonzero
price — the per-market and total exposure limits both hold; a missing or
zero price skips both exposure checks. -/
theorem can_trade_spec (limits : RiskLimits) (today : Int) (s : RiskState)
    (signal : TradeSignal) (h : s.trade_date = today) :
    can_trade limits today s signal = true ↔
      (s.daily_pnl > -limits.max_daily_loss ∧
       |dictGet s.positions signal.ticker 0 + signal.size| ≤ limits.max_position_size ∧
       ∀ p, signal.price = some p → p ≠ 0 →
         dictGet s.exposure signal.ticker 0 + signal.size * p ≤
           limits.max_exposure_per_market ∧
         s.total_exposure + signal.size * p ≤ limits.max_total_exposure) := by
  have hs : s.reset_daily today = s := by
    simp [RiskState.reset_daily, h]
  unfold can_trade
  rw [hs]
  rcases hp : signal.price with _ | p
  · simp only [hp]
    split_ifs with h1 h2 <;> simp <;> omega
  · simp only [hp]
    split_ifs with h1 h2 h3 h4 h5 <;>
      simp [Option.some.injEq, forall_eq] <;>
      omega

/-- A fresh risk state dated day 0 with no positions or exposure. -/
def freshState : RiskState := { trade_date := 0 }

/-- Witness for C1's amended theorem: a concrete in-limits signal with a
nonzero price is accepted, and the acceptance condition evaluates. -/
theorem can_trade_spec_witness :
    can_trade defaultLimits 0 freshState
      { cexSignal with price := some 64 } = true :=
  (can_trade_spec defaultLimits 0 freshState
      { cexSignal with price := some 64 } rfl).mpr
    (by
      refine ⟨by decide, by decide, ?_⟩
      intro p hp hnz
      have hp' : p = 64 := by
        simp [cexSignal] at hp
        omega
      subst hp'
      exact ⟨by decide, by decide⟩)

/-- C9: a signal whose price field is exactly `some 0` is gated exactly as if
it carried no price at all — both exposure checks are skipped. -/
theorem can_trade_zero_price (limits : RiskLimits) (today : Int) (s : RiskState)
    (signal : TradeSignal) (h : signal.price = some 0) :
    can_trade limits today s signal =
      can_trade limits today s { signal with price := none } := by
  unfold can_trade
  simp [h]

/-- Witness for C9 at the concrete zero-priced signal. -/
theorem can_trade_zero_price_witness :
    can_trade defaultLimits 0 cexState cexSignal =
      can_trade defaultLimits 0 cexState { cexSignal with price := none } :=
  can_trade_zero_price defaultLimits 0 cexState cexSignal rfl

/-- Unfolded form of `record_trade` on a state already dated today: the reset
is the identity and each field update is explicit. -/
theorem record_trade_eq (today : Int) (s : RiskState) (signal : TradeSignal)
    (fill_price realized_pnl : Int) (hd : s.trade_date = today) :
    record_trade today s signal fill_price realized_pnl =
      { s with
        positions := dictSet s.positions signal.ticker
          (if signal.signal.value = "buy"
            then dictGet s.positions signal.ticker 0 + signal.size
            else dictGet s.positions signal.ticker 0 - signal.size)
        exposure := dictSet s.exposure signal.ticker
          (dictGet s.exposure signal.ticker 0 + signal.size * fill_price)
        daily_pnl := s.daily_pnl + realized_pnl
        trades := s.trades ++ [{
          timestamp := signal.timestamp
          ticker := signal.ticker
          side := signal.side
          action := signal.signal.value
          size := signal.size
          price := fill_price
          pnl := realized_pnl }] } := by
  have hs : s.reset_daily today = s := by
    simp [RiskState.reset_daily, hd]
  unfold record_trade
  rw [hs]
  split <;> rfl

/-- C5: for a state dated today and a buy or sell signal, `record_trade`
moves the ticker's position by exactly +size (buy) or −size (sell), grows the
ticker's exposure by exactly `size * fill_price`, grows `daily_pnl` by exactly
`realized_pnl`, appends exactly one `TradeRecord`, and touches no other
ticker's position or exposure. -/
theorem record_trade_spec (today : Int) (s : RiskState) (signal : TradeSignal)
    (fill_price realized_pnl : Int) (hd : s.trade_date = today)
    (hk : signal.signal = Signal.buy ∨ signal.signal = Signal.sell) :
    dictGet (record_trade today s signal fill_price realized_pnl).positions
        signal.ticker 0 =
      dictGet s.positions signal.ticker 0 +
        (if signal.signal = Signal.buy then signal.size else -signal.size) ∧
    dictGet (record_trade today s signal fill_price realized_pnl).exposure
        signal.ticker 0 =
      dictGet s.exposure signal.ticker 0 + signal.size * fill_price ∧
    (record_trade today s signal fill_price realized_pnl).daily_pnl =
      s.daily_pnl + realized_pnl ∧
    (record_trade today s signal fill_price realized_pnl).trades =
      s.trades ++ [{
        timestamp := signal.timestamp
        ticker := signal.ticker
        side := signal.side
        action := signal.signal.value
        size := signal.size
        price := fill_price
        pnl := realized_pnl }] ∧
    (∀ t, t ≠ signal.ticker →
      dictGet (record_trade today s signal fill_price realized_pnl).positions t 0 =
        dictGet s.positions t 0 ∧
      dictGet (record_trade today s signal fill_price realized_pnl).exposure t 0 =
        dictGet s.exposure t 0) := by
  rw [record_trade_eq today s signal fill_price realized_pnl hd]
  refine ⟨?_, ?_, rfl, rfl, ?_⟩
  · rcases hk with hk | hk
    · simp [hk, Signal.value, dictGet_dictSet_same]
    · simp [hk, Signal.value, dictGet_dictSet_same]
      omega
  · exact dictGet_dictSet_same _ _ _ _
  · intro t ht
    exact ⟨dictGet_dictSet_other _ _ _ _ _ ht, dictGet_dictSet_other _ _ _ _ _ ht⟩

/-- A sample executed buy signal for the record-trade witnesses. -/
def recW : TradeSignal :=
  { signal := Signal.buy, ticker := "NFL-2426-BUF", side := "yes", size := 10,
    price := some 64, reason := "Test signal", timestamp := some 11 }

/-- Witness for C5 at a concrete buy on a fresh state: position +10,
exposure +640, P&L −100, one record appended, other tickers untouched. -/
theorem record_trade_spec_witness :
    dictGet (record_trade 0 freshState recW 64 (-100)).positions
        "NFL-2426-BUF" 0 = 10 ∧
    dictGet (record_trade 0 freshState recW 64 (-100)).exposure
        "NFL-2426-BUF" 0 = 640 ∧
    (record_trade 0 freshState recW 64 (-100)).daily_pnl = -100 ∧
    (record_trade 0 freshState recW 64 (-100)).trades = [trW] ∧
    dictGet (record_trade 0 freshState recW 64 (-100)).positions "OTHER" 0 = 0 := by
  have h := record_trade_spec 0 freshState recW 64 (-100) rfl (Or.inl rfl)
  rw [show ("NFL-2426-BUF" : String) = recW.ticker from rfl]
  refine ⟨?_, ?_, ?_, ?_, ?_⟩
  · rw [h.1]
    decide
  · rw [h.2.1]
    decide
  · rw [h.2.2.1]
    decide
  · rw [h.2.2.2.1]
    decide
  · rw [(h.2.2.2.2 "OTHER" (by decide)).1]
    decide

/-- The hold signal used by the C10 witness. -/
def holdW : TradeSignal :=
  { signal := Signal.hold, ticker := "NFL-2426-BUF", side := "yes", size := 10,
    price := some 64, reason := "Test signal", timestamp := some 11 }

/-- C10: for a state dated today and a signal of any kind other than buy —
hold included — `record_trade` decrements the ticker's position by the
signal's size: the bookkeeping treats every non-buy kind as a sell. -/
theorem record_trade_non_buy (today : Int) (s : RiskState) (signal : TradeSignal)
    (fill_price realized_pnl : Int) (hd : s.trade_date = today)
    (hk : signal.signal ≠ Signal.buy) :
    dictGet (record_trade today s signal fill_price realized_pnl).positions
        signal.ticker 0 =
      dictGet s.positions signal.ticker 0 - signal.size := by
  have hv : signal.signal.value ≠ "buy" := by
    rcases hsig : signal.signal
    · simp [hsig] at hk
    · simp [Signal.value]
    · simp [Signal.value]
  rw [record_trade_eq today s signal fill_price realized_pnl hd]
  simp only [if_neg hv]
  exact dictGet_dictSet_same _ _ _ _

/-- Witness for C10: recording a hold signal of size 10 on a fresh state
drives the tracked position to −10. -/
theorem record_trade_non_buy_witness :
    dictGet (record_trade 0 freshState holdW 64 0).positions "NFL-2426-BUF" 0 = -10 := by
  have h := record_trade_non_buy 0 freshState holdW 64 0 rfl (by decide)
  rw [show ("NFL-2426-BUF" : String) = holdW.ticker from rfl, h]
  decide

/-- Unfolded form of `adjust_signal` used by the C6 proof. -/
theorem adjust_signal_eq (limits : RiskLimits) (s : RiskState)
    (signal : TradeSignal) :
    adjust_signal limits s signal =
      if signal.size ≤ max_allowed_size limits s signal.ticker then signal
      else
        { signal := signal.signal
          ticker := signal.ticker
          side := signal.side
          size := max_allowed_size limits s signal.ticker
          price := signal.price
          reason := signal.reason ++ " (reduced from " ++ toString signal.size ++
            " to " ++ toString (max_allowed_size limits s signal.ticker) ++ ")"
          timestamp := signal.timestamp } := rfl

/-- C6: `adjust_signal` returns its input unchanged when the size fits within
`max_allowed_size`; otherwise the returned signal's size is exactly
`max_allowed_size = max 0 (max_position_size − |current_position|)`.  The
returned size never exceeds the input size, and the embedding is purely
functional, so the input value is never modified. -/
theorem adjust_signal_spec (limits : RiskLimits) (s : RiskState)
    (signal : TradeSignal) :
    (signal.size ≤ max_allowed_size limits s signal.ticker →
      adjust_signal limits s signal = signal) ∧
    (signal.size > max_allowed_size limits s signal.ticker →
      (adjust_signal limits s signal).size =
        max 0 (limits.max_position_size - |dictGet s.positions signal.ticker 0|)) ∧
    (adjust_signal limits s signal).size ≤ signal.size := by
  refine ⟨?_, ?_, ?_⟩
  · intro h
    rw [adjust_signal_eq, if_pos h]
  · intro h
    rw [adjust_signal_eq, if_neg (not_le.mpr h)]
    rfl
  · by_cases h : signal.size ≤ max_allowed_size limits s signal.ticker
    · rw [adjust_signal_eq, if_pos h]
    · rw [adjust_signal_eq, if_neg h]
      show max_allowed_size limits s signal.ticker ≤ signal.size
      omega

/-- Witness for C6: a size-10 signal on a fresh state passes through
unchanged, and a size-50 signal on an 80-contract position is clamped to 20. -/
theorem adjust_signal_spec_witness :
    adjust_signal defaultLimits freshState recW = recW ∧
    (adjust_signal defaultLimits
        { freshState with positions := [("NFL-2426-BUF", 80)] }
        { recW with size := 50 }).size = 20 := by
  constructor
  · exact (adjust_signal_spec defaultLimits freshState recW).1 (by decide)
  · rw [(adjust_signal_spec defaultLimits
        { freshState with positions := [("NFL-2426-BUF", 80)] }
        { recW with size := 50 }).2.1 (by decide)]
    decide

/-- Configuration of `ScoreMarginStrategy` after `_validate_config` and the
`config.get` defaults of `evaluate`: min_margin (required), direction
(default "leading"), side (default "yes"), size (default 10), limit_offset
(default 2). -/
structure SMConfig where
  min_margin : Int
  direction : String := "leading"
  side : String := "yes"
  size : Int := 10
  limit_offset : Int := 2
deriving DecidableEq

/-- Configuration of `GameTimeStrategy`: min_period (required) and an
optional max_clock. -/
structure TFConfig where
  min_period : Int
  max_clock : Option Int := none
deriving DecidableEq

/-- `ScoreMarginStrategy.evaluate`, transliterated from
`strategies/scoreboard.py`. -/
def smEvaluate (cfg : SMConfig) (game_state : GameState)
    (market_state : MarketState) : Option TradeSignal :=
  if !game_state.is_live then
    none
  else if !market_state.is_open then
    none
  else
    let margin := |game_state.margin|
    if margin < cfg.min_margin then
      none
    else
      let home_leading := game_state.margin > 0
      if cfg.direction = "leading" ∧ ¬home_leading then
        none
      else if cfg.direction ≠ "leading" ∧ home_leading then
        none
      else
        let price :=
          if cfg.side = "yes" then market_state.market.yes_ask + cfg.limit_offset
          else market_state.market.no_ask + cfg.limit_offset
        some {
          signal := Signal.buy
          ticker := market_state.market.ticker
          side := cfg.side
          size := cfg.size
          price := some price
          reason := "Margin " ++ toString margin ++ " exceeds threshold " ++
            toString cfg.min_margin ++ " (" ++ cfg.direction ++ ")"
          timestamp := none }

/-- `GameTimeStrategy.is_time_valid`, transliterated from
`strategies/scoreboard.py`. -/
def is_time_valid (cfg : TFConfig) (game_state : GameState) : Bool :=
  if !game_state.is_live then
    false
  else if game_state.period < cfg.min_period then
    false
  else
    match cfg.max_clock with
    | some mc => if game_state.clock_seconds > mc then false else true
    | none => true

/-- The strategy tree: margin-threshold, time-window filter, or AND/OR
composite over an ordered child list — the tagged-variant rendering of the
class hierarchy in `strategies/scoreboard.py`. -/
inductive Strategy where
  | margin (cfg : SMConfig)
  | timeFilter (cfg : TFConfig)
  | composite (op : String) (children : List Strategy)

/-- Whether a child is the time-window filter that `CompositeStrategy`
special-cases via `isinstance(strategy, GameTimeStrategy)`. -/
def Strategy.isTimeFilter : Strategy → Bool
  | Strategy.timeFilter _ => true
  | _ => false

mutual

/-- `TradingStrategy.evaluate` over the strategy tree: the margin strategy
evaluates via `smEvaluate`, the time filter always returns `None`, and a
composite runs `CompositeStrategy.evaluate` over its children. -/
def Strategy.evaluate : Strategy → GameState → MarketState →
    Option Position → Option TradeSignal
  | Strategy.margin cfg, g, m, _ => smEvaluate cfg g m
  | Strategy.timeFilter _, _, _, _ => none
  | Strategy.composite op children, g, m, p =>
    if children.isEmpty then none
    else evalLoop op children g m p []

/-- The body of `CompositeStrategy.evaluate`'s `for strategy in
self.strategies` loop, with the collected `signals` list made explicit: a
failing time filter returns `None` under "and" and is skipped otherwise, a
passing one is skipped; a non-filter child's signal is collected, and its
`None` returns `None` under "and"; at the end the first collected signal (or
`None`) is returned. -/
def evalLoop : String → List Strategy → GameState → MarketState →
    Option Position → List TradeSignal → Option TradeSignal
  | _, [], _, _, _, signals => signals.head?
  | op, Strategy.timeFilter cfg :: rest, g, m, p, signals =>
    if !is_time_valid cfg g then
      if op = "and" then none
      else evalLoop op rest g m p signals
    else evalLoop op rest g m p signals
  | op, Strategy.margin cfg :: rest, g, m, p, signals =>
    match Strategy.evaluate (Strategy.margin cfg) g m p with
    | some sig => evalLoop op rest g m p (signals ++ [sig])
    | none =>
      if op = "and" then none
      else evalLoop op rest g m p signals
  | op, Strategy.composite o c :: rest, g, m, p, signals =>
    match Strategy.evaluate (Strategy.composite o c) g m p with
    | some sig => evalLoop op rest g m p (signals ++ [sig])
    | none =>
      if op = "and" then none
      else evalLoop op rest g m p signals

end

/-- C2: for a validated direction, the margin strategy returns `None` unless
the game is live, the market open, `abs(margin) ≥ min_margin` and the home
team's leading/trailing state matches the direction; when all four hold it
returns a BUY signal priced at the configured side's best ask plus the limit
offset, sized at the configured size. -/
theorem sm_evaluate_spec (cfg : SMConfig) (g : GameState) (m : MarketState)
    (hdir : cfg.direction = "leading" ∨ cfg.direction = "trailing") :
    (g.is_live = true → m.is_open = true → cfg.min_margin ≤ |g.margin| →
      ((cfg.direction = "leading" ∧ g.margin > 0) ∨
       (cfg.direction = "trailing" ∧ ¬g.margin > 0)) →
      smEvaluate cfg g m = some {
        signal := Signal.buy
        ticker := m.market.ticker
        side := cfg.side
        size := cfg.size
        price := some ((if cfg.side = "yes" then m.market.yes_ask
          else m.market.no_ask) + cfg.limit_offset)
        reason := "Margin " ++ toString |g.margin| ++ " exceeds threshold " ++
          toString cfg.min_margin ++ " (" ++ cfg.direction ++ ")"
        timestamp := none }) ∧
    (¬(g.is_live = true ∧ m.is_open = true ∧ cfg.min_margin ≤ |g.margin| ∧
       ((cfg.direction = "leading" ∧ g.margin > 0) ∨
        (cfg.direction = "trailing" ∧ ¬g.margin > 0))) →
      smEvaluate cfg g m = none) := by
  constructor
  · rintro hl ho hm hd
    have hnm : ¬(|g.margin| < cfg.min_margin) := not_lt.mpr hm
    rcases hd with ⟨hd1, hd2⟩ | ⟨hd1, hd2⟩
    · by_cases hside : cfg.side = "yes" <;>
        simp [smEvaluate, hl, ho, hnm, hd1, hd2, hside]
    · have hne : cfg.direction ≠ "leading" := by
        rw [hd1]
        decide
      by_cases hside : cfg.side = "yes" <;>
        simp [smEvaluate, hl, ho, hnm, hd1, hd2, hne, hside]
  · intro hni
    by_cases hl : g.is_live
    case neg =>
      simp [smEvaluate, hl]
    by_cases ho : m.is_open
    case neg =>
      simp [smEvaluate, hl, ho]
    by_cases hm : |g.margin| < cfg.min_margin
    case pos =>
      simp [smEvaluate, hl, ho, hm]
    rcases hdir with hd | hd
    · by_cases hlead : g.margin > 0
      · exact absurd ⟨hl, ho, not_lt.mp hm, Or.inl ⟨hd, hlead⟩⟩ hni
      · simp [smEvaluate, hl, ho, hm, hd, hlead]
    · by_cases hlead : g.margin > 0
      · have hne : cfg.direction ≠ "leading" := by
          rw [hd]
          decide
        simp [smEvaluate, hl, ho, hm, hne, hlead]
      · exact absurd ⟨hl, ho, not_lt.mp hm, Or.inr ⟨hd, hlead⟩⟩ hni

/-- The live game used by witnesses: home leading 21–14 in Q4. -/
def gameW : GameState :=
  { event_id := "12345", sport := "nfl",
    home_team := { id := "1", abbreviation := "BUF", display_name := "Buffalo Bills" },
    away_team := { id := "2", abbreviation := "KC", display_name := "Kansas City Chiefs" },
    home_score := 21, away_score := 14, period := 4, clock_seconds := 300,
    status := GameStatus.inProgress }

/-- The open market used by witnesses. -/
def marketW : MarketState :=
  { market :=
      { ticker := "NFL-2426-BUF"
        event_ticker := "NFL-2426"
        title := "Will the Buffalo Bills win?"
        status := MarketStatus.open
        yes_bid := 62
        yes_ask := 64
        no_bid := 36
        no_ask := 38
        volume := 15420
        open_interest := 8234 } }

/-- Witness for C2: margin 7 against threshold 7, direction leading, side
yes: a BUY signal priced 64 + 2 = 66 of size 10. -/
theorem sm_evaluate_spec_witness :
    smEvaluate { min_margin := 7 } gameW marketW = some {
      signal := Signal.buy
      ticker := "NFL-2426-BUF"
      side := "yes"
      size := 10
      price := some 66
      reason := "Margin 7 exceeds threshold 7 (leading)"
      timestamp := none } := by
  have h := (sm_evaluate_spec { min_margin := 7 } gameW marketW (Or.inl rfl)).1
    (by decide) (by decide) (by decide) (Or.inl ⟨rfl, by decide⟩)
  rw [h]
  decide

/-- The signals produced by the non-filter children of a list, in child
order: the list the composite's `signals` accumulator ends up holding when
nothing short-circuits. -/
def stratSignals (children : List Strategy) (g : GameState) (m : MarketState)
    (p : Option Position) : List TradeSignal :=
  children.filterMap fun c =>
    if c.isTimeFilter then none else c.evaluate g m p

/-- Under "and", a failing time-filter child anywhere in the list forces the
composite loop to `None`, whatever was already collected. -/
theorem evalLoop_and_filter_fail (children : List Strategy) (g : GameState)
    (m : MarketState) (p : Option Position) (sigs : List TradeSignal)
    (h : ∃ cfg, Strategy.timeFilter cfg ∈ children ∧ is_time_valid cfg g = false) :
    evalLoop "and" children g m p sigs = none := by
  induction children generalizing sigs with
  | nil =>
    rcases h with ⟨cfg, hmem, _⟩
    cases hmem
  | cons c rest ih =>
    rcases h with ⟨cfg, hmem, hval⟩
    cases c with
    | timeFilter cfg' =>
      rw [evalLoop]
      cases hv : is_time_valid cfg' g with
      | true =>
        simp only [hv, Bool.not_true, Bool.false_eq_true, if_false]
        apply ih sigs
        rcases List.mem_cons.mp hmem with hc | hc
        · cases hc
          rw [hv] at hval
          cases hval
        · exact ⟨cfg, hc, hval⟩
      | false =>
        simp [hv]
    | margin cfg' =>
      have hrest : ∃ cfg, Strategy.timeFilter cfg ∈ rest ∧ is_time_valid cfg g = false := by
        rcases List.mem_cons.mp hmem with hc | hc
        · cases hc
        · exact ⟨cfg, hc, hval⟩
      rw [evalLoop]
      cases hev : Strategy.evaluate (Strategy.margin cfg') g m p with
      | some sig =>
        simp only [hev]
        exact ih _ hrest
      | none =>
        simp [hev]
    | composite o c2 =>
      have hrest : ∃ cfg, Strategy.timeFilter cfg ∈ rest ∧ is_time_valid cfg g = false := by
        rcases List.mem_cons.mp hmem with hc | hc
        · cases hc
        · exact ⟨cfg, hc, hval⟩
      rw [evalLoop]
      cases hev : Strategy.evaluate (Strategy.composite o c2) g m p with
      | some sig =>
        simp only [hev]
        exact ih _ hrest
      | none =>
        simp [hev]

/-- Under "and", a non-filter child evaluating to `None` anywhere in the list
forces the composite loop to `None`. -/
theorem evalLoop_and_child_none (children : List Strategy) (g : GameState)
    (m : MarketState) (p : Option Position) (sigs : List TradeSignal)
    (h : ∃ c ∈ children, c.isTimeFilter = false ∧ c.evaluate g m p = none) :
    evalLoop "and" children g m p sigs = none := by
  induction children generalizing sigs with
  | nil =>
    rcases h with ⟨c, hmem, _⟩
    cases hmem
  | cons c rest ih =>
    rcases h with ⟨c0, hmem, hnf, hev0⟩
    cases c with
    | timeFilter cfg' =>
      have hrest : ∃ c ∈ rest, c.isTimeFilter = false ∧ c.evaluate g m p = none := by
        rcases List.mem_cons.mp hmem with hc | hc
        · rw [hc] at hnf
          cases hnf
        · exact ⟨c0, hc, hnf, hev0⟩
      rw [evalLoop]
      cases hv : is_time_valid cfg' g with
      | true =>
        simp only [hv, Bool.not_true, Bool.false_eq_true, if_false]
        exact ih sigs hrest
      | false =>
        simp [hv]
    | margin cfg' =>
      rw [evalLoop]
      cases hev : Strategy.evaluate (Strategy.margin cfg') g m p with
      | some sig =>
        have hrest : ∃ c ∈ rest, c.isTimeFilter = false ∧ c.evaluate g m p = none := by
          rcases List.mem_cons.mp hmem with hc | hc
          · rw [← hc] at hev
            rw [hev0] at hev
            cases hev
          · exact ⟨c0, hc, hnf, hev0⟩
        simp only [hev]
        exact ih _ hrest
      | none =>
        simp [hev]
    | composite o c2 =>
      rw [evalLoop]
      cases hev : Strategy.evaluate (Strategy.composite o c2) g m p with
      | some sig =>
        have hrest : ∃ c ∈ rest, c.isTimeFilter = false ∧ c.evaluate g m p = none := by
          rcases List.mem_cons.mp hmem with hc | hc
          · rw [← hc] at hev
            rw [hev0] at hev
            cases hev
          · exact ⟨c0, hc, hnf, hev0⟩
        simp only [hev]
        exact ih _ hrest
      | none =>
        simp [hev]

/-- Under "or", the composite loop returns the head of the already-collected
signals followed by the signals of the remaining non-filter children: failing
filters are skipped without veto and `None` children are ignored. -/
theorem evalLoop_or (children : List Strategy) (g : GameState)
    (m : MarketState) (p : Option Position) (sigs : List TradeSignal) :
    evalLoop "or" children g m p sigs =
      (sigs ++ stratSignals children g m p).head? := by
  induction children generalizing sigs with
  | nil =>
    simp [evalLoop, stratSignals]
  | cons c rest ih =>
    cases c with
    | timeFilter cfg' =>
      rw [evalLoop]
      have hor : ("or" : String) ≠ "and" := by decide
      cases hv : is_time_valid cfg' g with
      | true =>
        simp only [hv, Bool.not_true, Bool.false_eq_true, if_false]
        rw [ih]
        simp [stratSignals, Strategy.isTimeFilter]
      | false =>
        simp only [hv, Bool.not_false, if_true, if_neg hor]
        rw [ih]
        simp [stratSignals, Strategy.isTimeFilter]
    | margin cfg' =>
      rw [evalLoop]
      have hor : ("or" : String) ≠ "and" := by decide
      cases hev : Strategy.evaluate (Strategy.margin cfg') g m p with
      | some sig =>
        simp only [hev]
        rw [ih]
        simp [stratSignals, Strategy.isTimeFilter, hev, List.append_assoc]
      | none =>
        simp only [hev, if_neg hor]
        rw [ih]
        simp [stratSignals, Strategy.isTimeFilter, hev]
    | composite o c2 =>
      rw [evalLoop]
      have hor : ("or" : String) ≠ "and" := by decide
      cases hev : Strategy.evaluate (Strategy.composite o c2) g m p with
      | some sig =>
        simp only [hev]
        rw [ih]
        simp [stratSignals, Strategy.isTimeFilter, hev, List.append_assoc]
      | none =>
        simp only [hev, if_neg hor]
        rw [ih]
        simp [stratSignals, Strategy.isTimeFilter, hev]

/-- Under "and", when every time-filter child passes and every non-filter
child produces a signal, the loop returns the head of the collected-so-far
signals followed by the children's signals. -/
theorem evalLoop_and_ok (children : List Strategy) (g : GameState)
    (m : MarketState) (p : Option Position) (sigs : List TradeSignal)
    (hf : ∀ cfg, Strategy.timeFilter cfg ∈ children → is_time_valid cfg g = true)
    (hn : ∀ c ∈ children, c.isTimeFilter = false → c.evaluate g m p ≠ none) :
    evalLoop "and" children g m p sigs =
      (sigs ++ stratSignals children g m p).head? := by
  induction children generalizing sigs with
  | nil =>
    simp [evalLoop, stratSignals]
  | cons c rest ih =>
    have hf' : ∀ cfg, Strategy.timeFilter cfg ∈ rest → is_time_valid cfg g = true :=
      fun cfg hc => hf cfg (List.mem_cons_of_mem c hc)
    have hn' : ∀ c' ∈ rest, c'.isTimeFilter = false → c'.evaluate g m p ≠ none :=
      fun c' hc => hn c' (List.mem_cons_of_mem c hc)
    cases c with
    | timeFilter cfg' =>
      have hv : is_time_valid cfg' g = true :=
        hf cfg' (List.mem_cons_self _ _)
      rw [evalLoop]
      simp only [hv, Bool.not_true, Bool.false_eq_true, if_false]
      rw [ih sigs hf' hn']
      simp [stratSignals, Strategy.isTimeFilter]
    | margin cfg' =>
      rw [evalLoop]
      cases hev : Strategy.evaluate (Strategy.margin cfg') g m p with
      | some sig =>
        simp only [hev]
        rw [ih _ hf' hn']
        simp [stratSignals, Strategy.isTimeFilter, hev, List.append_assoc]
      | none =>
        exact absurd hev
          (hn (Strategy.margin cfg') (List.mem_cons_self _ _) rfl)
    | composite o c2 =>
      rw [evalLoop]
      cases hev : Strategy.evaluate (Strategy.composite o c2) g m p with
      | some sig =>
        simp only [hev]
        rw [ih _ hf' hn']
        simp [stratSignals, Strategy.isTimeFilter, hev, List.append_assoc]
      | none =>
        exact absurd hev
          (hn (Strategy.composite o c2) (List.mem_cons_self _ _) rfl)

/-- Any signal the composite loop returns was either already collected or is
the `evaluate` output of some non-filter child: time filters never
contribute a signal. -/
theorem evalLoop_mem (op : String) (children : List Strategy) (g : GameState)
    (m : MarketState) (p : Option Position) (sigs : List TradeSignal)
    (s : TradeSignal) (h : evalLoop op children g m p sigs = some s) :
    s ∈ sigs ∨ ∃ c ∈ children, c.isTimeFilter = false ∧ c.evaluate g m p = some s := by
  induction children generalizing sigs with
  | nil =>
    rw [evalLoop] at h
    cases sigs with
    | nil => cases h
    | cons a t =>
      left
      simp only [List.head?] at h
      cases h
      exact List.mem_cons_self _ _
  | cons c rest ih =>
    cases c with
    | timeFilter cfg' =>
      rw [evalLoop] at h
      cases hv : is_time_valid cfg' g with
      | true =>
        rw [hv] at h
        simp only [Bool.not_true, Bool.false_eq_true, if_false] at h
        rcases ih sigs h with hs | ⟨c0, hc0, hnf, hev⟩
        · exact Or.inl hs
        · exact Or.inr ⟨c0, List.mem_cons_of_mem _ hc0, hnf, hev⟩
      | false =>
        rw [hv] at h
        simp only [Bool.not_false, if_true] at h
        by_cases hop : op = "and"
        · rw [if_pos hop] at h
          cases h
        · rw [if_neg hop] at h
          rcases ih sigs h with hs | ⟨c0, hc0, hnf, hev⟩
          · exact Or.inl hs
          · exact Or.inr ⟨c0, List.mem_cons_of_mem _ hc0, hnf, hev⟩
    | margin cfg' =>
      rw [evalLoop] at h
      cases hev : Strategy.evaluate (Strategy.margin cfg') g m p with
      | some sig =>
        rw [hev] at h
        simp only [] at h
        rcases ih _ h with hs | ⟨c0, hc0, hnf, hev0⟩
        · rcases List.mem_append.mp hs with hs' | hs'
          · exact Or.inl hs'
          · have : s = sig := by
              cases List.mem_singleton.mp hs'
              rfl
            subst this
            exact Or.inr ⟨Strategy.margin cfg', List.mem_cons_self _ _, rfl, hev⟩
        · exact Or.inr ⟨c0, List.mem_cons_of_mem _ hc0, hnf, hev0⟩
      | none =>
        rw [hev] at h
        by_cases hop : op = "and"
        · rw [if_pos hop] at h
          cases h
        · rw [if_neg hop] at h
          rcases ih sigs h with hs | ⟨c0, hc0, hnf, hev0⟩
          · exact Or.inl hs
          · exact Or.inr ⟨c0, List.mem_cons_of_mem _ hc0, hnf, hev0⟩
    | composite o c2 =>
      rw [evalLoop] at h
      cases hev : Strategy.evaluate (Strategy.composite o c2) g m p with
      | some sig =>
        rw [hev] at h
        simp only [] at h
        rcases ih _ h with hs | ⟨c0, hc0, hnf, hev0⟩
        · rcases List.mem_append.mp hs with hs' | hs'
          · exact Or.inl hs'
          · have : s = sig := by
              cases List.mem_singleton.mp hs'
              rfl
            subst this
            exact Or.inr ⟨Strategy.composite o c2, List.mem_cons_self _ _, rfl, hev⟩
        · exact Or.inr ⟨c0, List.mem_cons_of_mem _ hc0, hnf, hev0⟩
      | none =>
        rw [hev] at h
        by_cases hop : op = "and"
        · rw [if_pos hop] at h
          cases h
        · rw [if_neg hop] at h
          rcases ih sigs h with hs | ⟨c0, hc0, hnf, hev0⟩
          · exact Or.inl hs
          · exact Or.inr ⟨c0, List.mem_cons_of_mem _ hc0, hnf, hev0⟩

/-- Unfolded form of `CompositeStrategy.evaluate`: empty child list short-
circuits to `None`, otherwise the child loop runs with an empty signal
accumulator. -/
theorem composite_evaluate_eq (op : String) (children : List Strategy)
    (g : GameState) (m : MarketState) (p : Option Position) :
    Strategy.evaluate (Strategy.composite op children) g m p =
      if children.isEmpty then none else evalLoop op children g m p [] := by
  rw [Strategy.evaluate]

/-- C3: the composite strategy (i) returns `None` on an empty child list;
(ii) under "and" a failing time-filter child forces `None`; (iii) under
"and" a non-filter child returning `None` forces `None`; (iv) under "or" the
result is the first signal of the non-filter children in child order (`None`
when there is none), failing filters being skipped without veto; (v) under
"and" with every filter passing and every non-filter child signalling, the
result is likewise the first such signal; and (vi) any returned signal is
the output of some non-filter child — a time filter never contributes. -/
theorem composite_evaluate_spec (op : String) (children : List Strategy)
    (g : GameState) (m : MarketState) (p : Option Position) :
    (Strategy.evaluate (Strategy.composite op []) g m p = none) ∧
    ((∃ cfg, Strategy.timeFilter cfg ∈ children ∧ is_time_valid cfg g = false) →
      Strategy.evaluate (Strategy.composite "and" children) g m p = none) ∧
    ((∃ c ∈ children, c.isTimeFilter = false ∧ c.evaluate g m p = none) →
      Strategy.evaluate (Strategy.composite "and" children) g m p = none) ∧
    (Strategy.evaluate (Strategy.composite "or" children) g m p =
      (stratSignals children g m p).head?) ∧
    ((∀ cfg, Strategy.timeFilter cfg ∈ children → is_time_valid cfg g = true) →
     (∀ c ∈ children, c.isTimeFilter = false → c.evaluate g m p ≠ none) →
      Strategy.evaluate (Strategy.composite "and" children) g m p =
        (stratSignals children g m p).head?) ∧
    (∀ s, Strategy.evaluate (Strategy.composite op children) g m p = some s →
      ∃ c ∈ children, c.isTimeFilter = false ∧ c.evaluate g m p = some s) := by
  refine ⟨?_, ?_, ?_, ?_, ?_, ?_⟩
  · rw [composite_evaluate_eq]
    simp
  · intro h
    cases children with
    | nil =>
      rcases h with ⟨cfg, hmem, _⟩
      cases hmem
    | cons c rest =>
      rw [composite_evaluate_eq]
      simp only [List.isEmpty_cons, if_false, Bool.false_eq_true]
      exact evalLoop_and_filter_fail _ g m p [] h
  · intro h
    cases children with
    | nil =>
      rcases h with ⟨c, hmem, _⟩
      cases hmem
    | cons c rest =>
      rw [composite_evaluate_eq]
      simp only [List.isEmpty_cons, if_false, Bool.false_eq_true]
      exact evalLoop_and_child_none _ g m p [] h
  · cases children with
    | nil =>
      rw [composite_evaluate_eq]
      simp [stratSignals]
    | cons c rest =>
      rw [composite_evaluate_eq]
      simp only [List.isEmpty_cons, if_false, Bool.false_eq_true]
      rw [evalLoop_or]
      simp
  · intro hf hn
    cases children with
    | nil =>
      rw [composite_evaluate_eq]
      simp [stratSignals]
    | cons c rest =>
      rw [composite_evaluate_eq]
      simp only [List.isEmpty_cons, if_false, Bool.false_eq_true]
      rw [evalLoop_and_ok _ g m p [] hf hn]
      simp
  · intro s hsome
    cases children with
    | nil =>
      rw [composite_evaluate_eq] at hsome
      simp at hsome
    | cons c rest =>
      rw [composite_evaluate_eq] at hsome
      simp only [List.isEmpty_cons, if_false, Bool.false_eq_true] at hsome
      rcases evalLoop_mem op _ g m p [] s hsome with hs | hout
      · cases hs
      · exact hout

/-- Witness for C3: under "and" a failing time filter (min_period 5 against
period 4) vetoes a margin child that would signal, while under "or" the same
pair yields the margin child's BUY signal. -/
theorem composite_evaluate_spec_witness :
    Strategy.evaluate (Strategy.composite "and"
      [Strategy.timeFilter { min_period := 5 },
       Strategy.margin { min_margin := 7 }]) gameW marketW none = none ∧
    Strategy.evaluate (Strategy.composite "or"
      [Strategy.timeFilter { min_period := 5 },
       Strategy.margin { min_margin := 7 }]) gameW marketW none =
      (stratSignals
        [Strategy.timeFilter { min_period := 5 },
         Strategy.margin { min_margin := 7 }] gameW marketW none).head? := by
  constructor
  · exact (composite_evaluate_spec "and"
      [Strategy.timeFilter { min_period := 5 },
       Strategy.margin { min_margin := 7 }] gameW marketW none).2.1
      ⟨{ min_period := 5 }, List.mem_cons_self _ _, by decide⟩
  · exact (composite_evaluate_spec "or"
      [Strategy.timeFilter { min_period := 5 },
       Strategy.margin { min_margin := 7 }] gameW marketW none).2.2.2.1

/-- A persisted game-state row from the `game_states` table, as consumed by
`Backtester` (`engine/backtester.py`).  The `status` column holds the enum's
value string; it is embedded as the enum directly.  The stored `margin`
column is what `_create_simulated_market` reads. -/
structure Snapshot where
  timestamp : String
  event_id : String
  sport : String
  home_team : String
  away_team : String
  home_score : Int
  away_score : Int
  period : Int
  clock_seconds : Int
  status : GameStatus
  margin : Int
deriving DecidableEq

/-- Record of a simulated trade, from `engine/backtester.py`
(`BacktestTrade`). -/
structure BacktestTrade where
  timestamp : String
  event_id : String
  sport : String
  matchup : String
  strategy_name : String
  signal : String
  side : String
  size : Int
  entry_price : Int
  exit_price : Option Int := none
  pnl : Int := 0
  outcome : String := "pending"
deriving DecidableEq

/-- Results from a backtest run, from `engine/backtester.py`
(`BacktestResult`). -/
structure BacktestResult where
  start_date : String
  end_date : String
  strategies : List String
  total_signals : Int := 0
  total_trades : Int := 0
  winning_trades : Int := 0
  losing_trades : Int := 0
  total_pnl : Int := 0
  trades : List BacktestTrade := []
deriving DecidableEq

/-- A strategy together with its `name` attribute, as held in
`Backtester.strategies`. -/
structure NamedStrategy where
  name : String
  strat : Strategy

/-- `Backtester._snapshot_to_game_state`: convert a database snapshot to a
`GameState` (team ids are hard-coded to "0"). -/
def snapshotToGameState (snap : Snapshot) : GameState :=
  { event_id := snap.event_id
    sport := snap.sport
    home_team := { id := "0", abbreviation := snap.home_team,
                   display_name := snap.home_team }
    away_team := { id := "0", abbreviation := snap.away_team,
                   display_name := snap.away_team }
    home_score := snap.home_score
    away_score := snap.away_score
    period := snap.period
    clock_seconds := snap.clock_seconds
    status := snap.status }

/-- The yes price synthesized by `Backtester._create_simulated_market`: base
probability 50, adjusted by 3 per point of margin with the adjustment capped
at `min(40, ...)`, then bounded by 95 (leading) or 5 (trailing). -/
def simulatedYesPrice (margin : Int) : Int :=
  let base_prob : Int := 50
  let prob_adjustment := min 40 (|margin| * 3)
  if margin > 0 then
    min 95 (base_prob + prob_adjustment)
  else
    max 5 (base_prob - prob_adjustment)

/-- `Backtester._create_simulated_market`: synthesize an open market whose
quote derives from the snapshot's stored margin. -/
def createSimulatedMarket (snap : Snapshot) : MarketState :=
  let yes_price := simulatedYesPrice snap.margin
  { market :=
      { ticker := snap.sport.toUpper ++ "-" ++ snap.event_id
        event_ticker := snap.event_id
        title := snap.away_team ++ " @ " ++ snap.home_team
        status := MarketStatus.open
        yes_bid := yes_price - 2
        yes_ask := yes_price
        no_bid := 100 - yes_price - 2
        no_ask := 100 - yes_price
        volume := 0
        open_interest := 0 } }

/-- `Backtester._simulate_trade`: settle a signal against the event's final
snapshot (the Python indexes `all_snapshots[-1]`, which is well-defined at
every call site because the entry snapshot belongs to the list; the default
only covers the impossible empty case).  `signal.price or 50` is Python
truthiness: a missing or zero price falls back to 50. -/
def simulate_trade (signal : TradeSignal) (entry_snapshot : Snapshot)
    (strategy_name : String) (all_snapshots : List Snapshot) : BacktestTrade :=
  let final_snapshot := all_snapshots.getLastD entry_snapshot
  let home_won : Bool := final_snapshot.home_score > final_snapshot.away_score
  let won : Bool := if signal.side = "yes" then home_won else !home_won
  let entry_price : Int :=
    match signal.price with
    | some p => if p = 0 then 50 else p
    | none => 50
  { timestamp := entry_snapshot.timestamp
    event_id := entry_snapshot.event_id
    sport := entry_snapshot.sport
    matchup := entry_snapshot.away_team ++ "@" ++ entry_snapshot.home_team
    strategy_name := strategy_name
    signal := signal.signal.value
    side := signal.side
    size := signal.size
    entry_price := entry_price
    exit_price := some (if won then 100 else 0)
    pnl := if won then (100 - entry_price) * signal.size
           else -entry_price * signal.size
    outcome := if won then "win" else "loss" }

/-- The `for strategy in self.strategies` body of
`Backtester._process_event`: skip strategies already signalled for this
event, evaluate, and on an actionable signal bump the counters, record the
simulated trade and tally its outcome. -/
def stratLoop (g : GameState) (ms : MarketState) (snap : Snapshot)
    (eventSnaps : List Snapshot) :
    List NamedStrategy → List String → BacktestResult →
      List String × BacktestResult
  | [], signaled, result => (signaled, result)
  | ns :: rest, signaled, result =>
    let strategy_key := ns.name ++ ":" ++ snap.event_id
    if signaled.contains strategy_key then
      stratLoop g ms snap eventSnaps rest signaled result
    else
      match ns.strat.evaluate g ms none with
      | some signal =>
        if signal.is_actionable then
          let result1 := { result with total_signals := result.total_signals + 1 }
          let signaled1 := signaled ++ [strategy_key]
          let trade := simulate_trade signal snap ns.name eventSnaps
          let result2 := { result1 with
            trades := result1.trades ++ [trade]
            total_trades := result1.total_trades + 1 }
          let result3 :=
            if trade.outcome = "win" then
              { result2 with winning_trades := result2.winning_trades + 1,
                             total_pnl := result2.total_pnl + trade.pnl }
            else if trade.outcome = "loss" then
              { result2 with losing_trades := result2.losing_trades + 1,
                             total_pnl := result2.total_pnl + trade.pnl }
            else result2
          stratLoop g ms snap eventSnaps rest signaled1 result3
        else
          stratLoop g ms snap eventSnaps rest signaled result
      | none =>
        stratLoop g ms snap eventSnaps rest signaled result

/-- The `for snapshot in snapshots` loop of `Backtester._process_event`:
non-live snapshots are skipped; live ones run the strategy loop against the
simulated market. -/
def processLoop (strats : List NamedStrategy) (eventSnaps : List Snapshot) :
    List Snapshot → List String → BacktestResult → BacktestResult
  | [], _, result => result
  | snap :: rest, signaled, result =>
    let game_state := snapshotToGameState snap
    if game_state.is_live then
      let market_state := createSimulatedMarket snap
      let sr := stratLoop game_state market_state snap eventSnaps strats
        signaled result
      processLoop strats eventSnaps rest sr.1 sr.2
    else
      processLoop strats eventSnaps rest signaled result

/-- `Backtester._process_event`: empty snapshot lists return immediately;
otherwise the snapshot loop starts with no strategies signalled. -/
def processEvent (strats : List NamedStrategy) (eventSnaps : List Snapshot)
    (result : BacktestResult) : BacktestResult :=
  if eventSnaps.isEmpty then result
  else processLoop strats eventSnaps eventSnaps [] result

/-- `Backtester._group_by_event`: group snapshots by event id, preserving
first-appearance order of events and snapshot order within each event
(Python dicts preserve insertion order). -/
def groupByEvent (snaps : List Snapshot) : List (String × List Snapshot) :=
  snaps.foldl
    (fun events s =>
      if events.any (fun pr => pr.1 = s.event_id) then
        events.map (fun pr =>
          if pr.1 = s.event_id then (pr.1, pr.2 ++ [s]) else pr)
      else
        events ++ [(s.event_id, [s])])
    []

/-- `Backtester.run` on an already-fetched snapshot list: an empty list
yields the empty result; otherwise the result is initialized from the date
arguments (falling back to the first and last snapshots' timestamp prefixes)
and every event group is processed in order. -/
def runBacktest (strats : List NamedStrategy) (start_date end_date : Option String)
    (snaps : List Snapshot) : BacktestResult :=
  match snaps with
  | [] =>
    { start_date := start_date.getD ""
      end_date := end_date.getD ""
      strategies := strats.map NamedStrategy.name }
  | s0 :: rest =>
    let init : BacktestResult :=
      { start_date := start_date.getD (s0.timestamp.take 10)
        end_date := end_date.getD (((s0 :: rest).getLastD s0).timestamp.take 10)
        strategies := strats.map NamedStrategy.name }
    (groupByEvent (s0 :: rest)).foldl
      (fun r pr => processEvent strats pr.2 r) init

/-- A snapshot with stored margin 14 — past the point where the code's
`min(40, |margin|*3)` cap diverges from a plain [5,95] clamp. -/
def snapCex : Snapshot :=
  { timestamp := "2026-01-02T19:00:00", event_id := "12345", sport := "nfl",
    home_team := "BUF", away_team := "KC", home_score := 28, away_score := 14,
    period := 3, clock_seconds := 500, status := GameStatus.inProgress,
    margin := 14 }

/-- C4 counterexample: at margin 14 the synthesized yes ask is 90 — the
per-point adjustment is capped at 40 before any clamping — whereas
(50 + 3·14) clamped to [5, 95] is 92. -/
theorem simulated_market_claim_counterexample :
    (createSimulatedMarket snapCex).market.yes_ask = 90 ∧
    max 5 (min 95 (50 + 3 * snapCex.margin)) = 92 := by
  constructor
  · rfl
  · rfl

/-- The synthesized yes price as a closed form: 50 + 3 cents per point of
margin, clamped to [10, 90] — the cap `min(40, |margin|*3)` makes the
code's 5/95 bounds unreachable. -/
theorem simulatedYesPrice_eq (m : Int) :
    simulatedYesPrice m = max 10 (min 90 (50 + 3 * m)) := by
  unfold simulatedYesPrice
  rcases lt_trichotomy m 0 with hm | hm | hm
  · rw [abs_of_neg hm, if_neg (by omega)]
    omega
  · subst hm
    simp
  · rw [abs_of_pos hm, if_pos hm]
    omega

/-- C4 (amended): the synthesized quote satisfies
yes_ask = (50 + 3·margin) clamped to [10, 90] (the 3-cents-per-point
adjustment is capped at ±40, so the code's [5, 95] bounds never bind),
yes_bid = yes_ask − 2, no_ask = 100 − yes_ask, no_bid = 100 − yes_ask − 2. -/
theorem simulated_market_spec (snap : Snapshot) :
    (createSimulatedMarket snap).market.yes_ask =
      max 10 (min 90 (50 + 3 * snap.margin)) ∧
    (createSimulatedMarket snap).market.yes_bid =
      (createSimulatedMarket snap).market.yes_ask - 2 ∧
    (createSimulatedMarket snap).market.no_ask =
      100 - (createSimulatedMarket snap).market.yes_ask ∧
    (createSimulatedMarket snap).market.no_bid =
      100 - (createSimulatedMarket snap).market.yes_ask - 2 :=
  ⟨simulatedYesPrice_eq snap.margin, rfl, rfl, rfl⟩

/-- Step relation for `_process_event`'s snapshot loop: one constructor per
control path (finished, non-live snapshot skipped, live snapshot runs the
strategy loop). -/
inductive ProcSteps (strats : List NamedStrategy) (eventSnaps : List Snapshot) :
    List Snapshot → List String → BacktestResult → BacktestResult → Prop where
  | done (signaled : List String) (result : BacktestResult) :
      ProcSteps strats eventSnaps [] signaled result result
  | skip (snap : Snapshot) (rest : List Snapshot) (signaled : List String)
      (result final : BacktestResult)
      (hdead : (snapshotToGameState snap).is_live = false)
      (hrest : ProcSteps strats eventSnaps rest signaled result final) :
      ProcSteps strats eventSnaps (snap :: rest) signaled result final
  | live (snap : Snapshot) (rest : List Snapshot) (signaled : List String)
      (result final : BacktestResult) (sr : List String × BacktestResult)
      (hlive : (snapshotToGameState snap).is_live = true)
      (hstep : stratLoop (snapshotToGameState snap) (createSimulatedMarket snap)
        snap eventSnaps strats signaled result = sr)
      (hrest : ProcSteps strats eventSnaps rest sr.1 sr.2 final) :
      ProcSteps strats eventSnaps (snap :: rest) signaled result final

/-- Step relation for `run`'s per-event loop. -/
inductive EventsSteps (strats : List NamedStrategy) :
    List (String × List Snapshot) → BacktestResult → BacktestResult → Prop where
  | done (result : BacktestResult) : EventsSteps strats [] result result
  | step (eid : String) (es : List Snapshot)
      (rest : List (String × List Snapshot))
      (result mid final : BacktestResult)
      (hev : ProcSteps strats es es [] result mid)
      (hrest : EventsSteps strats rest mid final) :
      EventsSteps strats ((eid, es) :: rest) result final

/-- Relational semantics of `Backtester.run` over a fetched snapshot list. -/
inductive RunRel (strats : List NamedStrategy)
    (start_date end_date : Option String) :
    List Snapshot → BacktestResult → Prop where
  | empty :
      RunRel strats start_date end_date []
        { start_date := start_date.getD ""
          end_date := end_date.getD ""
          strategies := strats.map NamedStrategy.name }
  | nonempty (s0 : Snapshot) (rest : List Snapshot) (final : BacktestResult)
      (hev : EventsSteps strats (groupByEvent (s0 :: rest))
        { start_date := start_date.getD (s0.timestamp.take 10)
          end_date := end_date.getD (((s0 :: rest).getLastD s0).timestamp.take 10)
          strategies := strats.map NamedStrategy.name } final) :
      RunRel strats start_date end_date (s0 :: rest) final

/-- The snapshot loop relation is deterministic: the skip/live guards are
mutually exclusive and the strategy loop is a function. -/
theorem procSteps_deterministic (strats : List NamedStrategy)
    (eventSnaps : List Snapshot) (rem : List Snapshot) (signaled : List String)
    (result f1 f2 : BacktestResult)
    (h1 : ProcSteps strats eventSnaps rem signaled result f1)
    (h2 : ProcSteps strats eventSnaps rem signaled result f2) : f1 = f2 := by
  induction h1 generalizing f2 with
  | done signaled result =>
    cases h2
    rfl
  | skip snap rest signaled result final hdead hrest ih =>
    cases h2 with
    | skip _ _ _ _ _ _ hrest2 =>
      exact ih _ hrest2
    | live _ _ _ _ _ _ hlive2 _ _ =>
      rw [hdead] at hlive2
      cases hlive2
  | live snap rest signaled result final sr hlive hstep hrest ih =>
    cases h2 with
    | skip _ _ _ _ _ hdead2 _ =>
      rw [hlive] at hdead2
      cases hdead2
    | live _ _ _ _ _ sr2 hlive2 hstep2 hrest2 =>
      have hsr : sr = sr2 := hstep.symm.trans hstep2
      subst hsr
      exact ih _ hrest2

/-- The per-event loop relation is deterministic. -/
theorem eventsSteps_deterministic (strats : List NamedStrategy)
    (events : List (String × List Snapshot)) (result f1 f2 : BacktestResult)
    (h1 : EventsSteps strats events result f1)
    (h2 : EventsSteps strats events result f2) : f1 = f2 := by
  induction h1 generalizing f2 with
  | done result =>
    cases h2
    rfl
  | step eid es rest result mid final hev hrest ih =>
    cases h2 with
    | step _ _ _ _ mid2 _ hev2 hrest2 =>
      have hm : mid = mid2 :=
        procSteps_deterministic strats es es [] result mid mid2 hev hev2
      subst hm
      exact ih _ hrest2

/-- C8: the backtest replay relation is deterministic — for one snapshot
sequence and one strategy list (and fixed date arguments), any two runs
reach the same `BacktestResult`: identical signal and trade counts, win and
loss counts, total P&L and trade list. -/
theorem backtest_deterministic (strats : List NamedStrategy)
    (start_date end_date : Option String) (snaps : List Snapshot)
    (r1 r2 : BacktestResult)
    (h1 : RunRel strats start_date end_date snaps r1)
    (h2 : RunRel strats start_date end_date snaps r2) : r1 = r2 := by
  cases h1 <;> cases h2
  · rfl
  · apply eventsSteps_deterministic strats <;> assumption

/-- The snapshot-loop function realizes its step relation. -/
theorem procSteps_processLoop (strats : List NamedStrategy)
    (eventSnaps : List Snapshot) (rem : List Snapshot) (signaled : List String)
    (result : BacktestResult) :
    ProcSteps strats eventSnaps rem signaled result
      (processLoop strats eventSnaps rem signaled result) := by
  induction rem generalizing signaled result with
  | nil =>
    exact ProcSteps.done signaled result
  | cons snap rest ih =>
    rw [processLoop]
    cases hl : (snapshotToGameState snap).is_live with
    | false =>
      simp only [hl, Bool.false_eq_true, if_false]
      exact ProcSteps.skip snap rest signaled result _ hl (ih signaled result)
    | true =>
      simp only [hl, if_true]
      exact ProcSteps.live snap rest signaled result _ _ hl rfl (ih _ _)

/-- `_process_event` equals the snapshot loop even on the empty list the
guard short-circuits. -/
theorem processEvent_eq_processLoop (strats : List NamedStrategy)
    (eventSnaps : List Snapshot) (result : BacktestResult) :
    processEvent strats eventSnaps result =
      processLoop strats eventSnaps eventSnaps [] result := by
  cases eventSnaps with
  | nil => rfl
  | cons s t => rfl

/-- The per-event fold realizes its step relation. -/
theorem eventsSteps_foldl (strats : List NamedStrategy)
    (events : List (String × List Snapshot)) (result : BacktestResult) :
    EventsSteps strats events result
      (events.foldl (fun r pr => processEvent strats pr.2 r) result) := by
  induction events generalizing result with
  | nil =>
    exact EventsSteps.done result
  | cons pr rest ih =>
    rcases pr with ⟨eid, es⟩
    rw [List.foldl_cons]
    refine EventsSteps.step eid es rest result
      (processEvent strats es result) _ ?_ (ih _)
    rw [processEvent_eq_processLoop]
    exact procSteps_processLoop strats es es [] result

/-- `runBacktest` realizes the run relation, so the relation is total and
agrees with the functional embedding. -/
theorem runRel_runBacktest (strats : List NamedStrategy)
    (start_date end_date : Option String) (snaps : List Snapshot) :
    RunRel strats start_date end_date snaps
      (runBacktest strats start_date end_date snaps) := by
  cases snaps with
  | nil =>
    exact RunRel.empty
  | cons s0 rest =>
    exact RunRel.nonempty s0 rest _ (eventsSteps_foldl strats _ _)

/-- The strategies used by the C8 witness. -/
def stratsW : List NamedStrategy :=
  [{ name := "margin7", strat := Strategy.margin { min_margin := 7 } }]

/-- The snapshot list used by the C8 witness: one live snapshot and a final
one for the same event. -/
def snapsW : List Snapshot :=
  [{ timestamp := "2026-01-02T19:00:00", event_id := "12345", sport := "nfl",
     home_team := "BUF", away_team := "KC", home_score := 21, away_score := 14,
     period := 4, clock_seconds := 300, status := GameStatus.inProgress,
     margin := 7 },
   { timestamp := "2026-01-02T22:00:00", event_id := "12345", sport := "nfl",
     home_team := "BUF", away_team := "KC", home_score := 31, away_score := 21,
     period := 4, clock_seconds := 0, status := GameStatus.post,
     margin := 10 }]

/-- Witness for C8: at the concrete two-snapshot input, two derivations of
the run relation — both obtained by evaluating the replay — settle on the
same result. -/
theorem backtest_deterministic_witness :
    runBacktest stratsW none none snapsW = runBacktest stratsW none none snapsW :=
  backtest_deterministic stratsW none none snapsW _ _
    (runRel_runBacktest stratsW none none snapsW)
    (runRel_runBacktest stratsW none none snapsW)
